import Mathlib

/-!
# A verification development for `httputil.go`

The file `httputil.go` wraps a request and a response writer and offers
`Encode`, `Decode`, `Error`, `Check` and `DecodeForm`.  The methods are embedded
here as pure functions that pass the response writer explicitly and return an
`Outcome`: either the method returned (with the response writer as it then is)
or it panicked (with the response writer as it was at the panic).

Go strings are modelled as lists of Unicode code points (valid UTF-8 strings).
The standard-library functions the file calls (`http.Error`, `strconv.Atoi`,
`strconv.ParseInt`, `strconv.ParseUint`, `strconv.ParseBool`, `strconv.Quote`,
`strings.Split`) are embedded from their Go definitions; the JSON codec, the
reflection of a value and the Unicode tables are taken as parameters.
-/

namespace Httputil

/-! ## Strings and platform parameters -/

/-- A Go `string` holding valid UTF-8: the list of its code points. -/
abbrev GoString := List Char

/-- The double quote character. -/
def dquote : Char := Char.ofNat 34

/-- The backslash character. -/
def backslash : Char := Char.ofNat 92

/-- The newline character. -/
def newline : Char := Char.ofNat 10

/-- What the Go toolchain fixes and the repository does not contain: the width
of `int` (`strconv.IntSize`, 32 or 64) and the Unicode tables behind
`strconv.IsPrint` for code points above U+00FF. -/
structure Host where
  is64 : Bool
  isPrintWide : Nat → Bool

/-- The constant `strconv.IntSize`. -/
def Host.intSize (h : Host) : Nat := if h.is64 then 64 else 32

/-- Conversion of an integer to a signed machine integer of `bits` bits
(two's complement wrap-around). -/
def wrapInt (bits : Nat) (z : Int) : Int :=
  (z + 2 ^ (bits - 1)) % 2 ^ bits - 2 ^ (bits - 1)

/-! ## `strconv`: formatting and quoting -/

/-- Decimal digits of `n`, most significant first, by repeated division; the
first argument bounds the number of digits. -/
def decimalFuel : Nat → Nat → GoString
  | 0, _ => []
  | fuel + 1, n =>
    if n < 10 then [Nat.digitChar n]
    else decimalFuel fuel (n / 10) ++ [Nat.digitChar (n % 10)]

/-- The base-10 rendering of a natural number: `strconv.FormatUint(n, 10)`. -/
def FormatUint (n : Nat) : GoString := decimalFuel (n + 1) n

/-- The base-10 rendering of an integer: `strconv.FormatInt(n, 10)`, a minus
sign for a negative number followed by the digits of its magnitude. -/
def FormatInt (n : Int) : GoString :=
  if n < 0 then '-' :: FormatUint n.natAbs else FormatUint n.natAbs

/-- The function `strconv.IsPrint`: Latin-1 is decided directly, the rest by the
Unicode tables. -/
def IsPrint (h : Host) (r : Nat) : Bool :=
  if r ≤ 0xFF then
    if 0x20 ≤ r ∧ r ≤ 0x7E then true
    else if 0xA1 ≤ r ∧ r ≤ 0xFF then r != 0xAD
    else false
  else h.isPrintWide r

/-- Hexadecimal digits of `r` at the given shifts (`lowerhex[r>>s&0xF]`). -/
def hexAt (r : Nat) (shifts : List Nat) : GoString :=
  shifts.map fun s => Nat.digitChar ((r >>> s) % 16)

/-- The function `utf8.ValidRune`. -/
def ValidRune (r : Nat) : Bool :=
  if r < 0xD800 then true
  else if 0xDFFF < r ∧ r ≤ 0x10FFFF then true
  else false

/-- The function `strconv.appendEscapedRune` for the double quote, with
`ASCIIonly` and `graphicOnly` both false, as `strconv.Quote` calls it. -/
def appendEscapedRune (h : Host) (c : Char) : GoString :=
  let r := c.toNat
  if r = 34 ∨ r = 92 then [backslash, c]
  else if IsPrint h r then [c]
  else if r = 7 then [backslash, 'a']
  else if r = 8 then [backslash, 'b']
  else if r = 12 then [backslash, 'f']
  else if r = 10 then [backslash, 'n']
  else if r = 13 then [backslash, 'r']
  else if r = 9 then [backslash, 't']
  else if r = 11 then [backslash, 'v']
  else if r < 32 ∨ r = 0x7f then backslash :: 'x' :: hexAt r [4, 0]
  else if !ValidRune r then backslash :: 'u' :: hexAt 0xFFFD [12, 8, 4, 0]
  else if r < 0x10000 then backslash :: 'u' :: hexAt r [12, 8, 4, 0]
  else backslash :: 'U' :: hexAt r [28, 24, 20, 16, 12, 8, 4, 0]

/-- The function `strconv.Quote`, which is what the verb `%q` prints for a
string. -/
def Quote (h : Host) (s : GoString) : GoString :=
  dquote :: (s.flatMap (appendEscapedRune h) ++ [dquote])

/-! ## Errors -/

/-- Go `error` values that occur: an error with a fixed message (`errors.New`,
or any error of a foreign package), a `*strconv.NumError`, and the
`*fmt.wrapError` that `fmt.Errorf` builds for a `%w` verb.  The nil error is
`none` of `Option GoError`. -/
inductive GoError where
  | plain (msg : GoString)
  | num (Func : GoString) (Num : GoString) (Err : GoError)
  | wrapped (msg : GoString) (err : GoError)
  deriving DecidableEq

/-- The value `strconv.ErrSyntax`. -/
def ErrSyntax : GoError := .plain "invalid syntax".toList

/-- The value `strconv.ErrRange`. -/
def ErrRange : GoError := .plain "value out of range".toList

/-- The method `Error()` of an error value. -/
def GoError.Error (h : Host) : GoError → GoString
  | .plain msg => msg
  | .num fn str err =>
    "strconv.".toList ++ fn ++ ": parsing ".toList ++ Quote h str ++ ": ".toList ++ err.Error h
  | .wrapped msg _ => msg

/-- The method `Unwrap()` of an error value, `none` where there is none. -/
def GoError.Unwrap : GoError → Option GoError
  | .plain _ => none
  | .num _ _ err => some err
  | .wrapped _ err => some err

/-- The helper `strconv.syntaxError`. -/
def syntaxError (fn str : GoString) : GoError := .num fn str ErrSyntax

/-- The helper `strconv.rangeError`. -/
def rangeError (fn str : GoString) : GoError := .num fn str ErrRange

/-- The helper `strconv.bitSizeError`. -/
def bitSizeError (fn str : GoString) (bitSize : Nat) : GoError :=
  .num fn str (.plain ("invalid bit size ".toList ++ FormatUint bitSize))

/-! ## `strconv`: parsing

Every call in `httputil.go` passes base 10, so the base is fixed at 10 and the
branches of `ParseUint` for base 0 (prefixes and underscores) are left out. -/

/-- The constant `maxUint64`. -/
def maxUint64 : Nat := 2 ^ 64 - 1

/-- The helper `lower` of `strconv`: `c | ('x' - 'X')`. -/
def lower (c : Nat) : Nat := c ||| 0x20

/-- The digit loop of `strconv.ParseUint` for base 10: `n` is the value read so
far, `s0` the whole input (for the error), the result the value and the error. -/
def parseUintLoop (s0 : GoString) (maxVal : Nat) : GoString → Nat → Nat × Option GoError
  | [], n => (n, none)
  | c :: cs, n =>
    let b := c.toNat
    let digit : Option Nat :=
      if 48 ≤ b ∧ b ≤ 57 then some (b - 48)
      else if 97 ≤ lower b ∧ lower b ≤ 122 then some (lower b - 97 + 10)
      else none
    match digit with
    | none => (0, some (syntaxError "ParseUint".toList s0))
    | some d =>
      if d ≥ 10 then (0, some (syntaxError "ParseUint".toList s0))
      else if n ≥ maxUint64 / 10 + 1 then (maxVal, some (rangeError "ParseUint".toList s0))
      else
        let n10 := (n * 10) % 2 ^ 64
        let n1 := (n10 + d) % 2 ^ 64
        if n1 < n10 ∨ n1 > maxVal then (maxVal, some (rangeError "ParseUint".toList s0))
        else parseUintLoop s0 maxVal cs n1

/-- The function `strconv.ParseUint(s, 10, bitSize)`. -/
def ParseUint (h : Host) (s : GoString) (bitSize : Nat) : Nat × Option GoError :=
  if s = [] then (0, some (syntaxError "ParseUint".toList s))
  else if bitSize > 64 then (0, some (bitSizeError "ParseUint".toList s bitSize))
  else
    let bitSize := if bitSize = 0 then h.intSize else bitSize
    let maxVal := (2 ^ bitSize % 2 ^ 64 + 2 ^ 64 - 1) % 2 ^ 64
    parseUintLoop s maxVal s 0

/-- Replaces `Func` and `Num` of a `*strconv.NumError`, as `ParseInt` and `Atoi`
do by assignment. -/
def GoError.retag (fn : Option GoString) (num : Option GoString) : GoError → GoError
  | .num f n e => .num (fn.getD f) (num.getD n) e
  | e => e

/-- The function `strconv.ParseInt(s, 10, bitSize)`. -/
def ParseInt (h : Host) (s : GoString) (bitSize : Nat) : Int × Option GoError :=
  match s with
  | [] => (0, some (syntaxError "ParseInt".toList s))
  | c :: rest =>
    let s0 := s
    let neg := decide (c = '-')
    let s1 := if c = '+' then rest else if c = '-' then rest else s
    let (un, err) := ParseUint h s1 bitSize
    match (match err with
           | some e => if e.Unwrap ≠ some ErrRange then some e else none
           | none => none) with
    | some e => (0, some (e.retag (some "ParseInt".toList) (some s0)))
    | none =>
      let bitSize := if bitSize = 0 then h.intSize else bitSize
      let cutoff := 2 ^ (bitSize - 1) % 2 ^ 64
      if !neg ∧ un ≥ cutoff then
        (wrapInt 64 (((cutoff : Int) - 1) % 2 ^ 64), some (rangeError "ParseInt".toList s0))
      else if neg ∧ un > cutoff then
        (wrapInt 64 (-(wrapInt 64 cutoff)), some (rangeError "ParseInt".toList s0))
      else
        let n := wrapInt 64 un
        let n := if neg then wrapInt 64 (-n) else n
        (n, none)

/-- The loop of the fast path of `strconv.Atoi`; `none` when a character is not
a decimal digit (the bytes of a code point outside ASCII are all above `9` once
`0` is subtracted, so the test by code point and the test by byte agree). -/
def atoiLoop (bits : Nat) : GoString → Int → Option Int
  | [], n => some n
  | ch :: cs, n =>
    if 48 ≤ ch.toNat ∧ ch.toNat ≤ 57 then
      atoiLoop bits cs (wrapInt bits (n * 10 + ((ch.toNat - 48 : Nat) : Int)))
    else none

/-- Width of a code point in UTF-8, so that `len(s)` is the sum of the widths. -/
def utf8Width (c : Char) : Nat :=
  if c.toNat < 0x80 then 1 else if c.toNat < 0x800 then 2 else if c.toNat < 0x10000 then 3 else 4

/-- The length `len(s)` of a Go string in bytes. -/
def byteLen (s : GoString) : Nat := (s.map utf8Width).sum

/-- The function `strconv.Atoi`. -/
def Atoi (h : Host) (s : GoString) : Int × Option GoError :=
  let sLen := byteLen s
  if (h.intSize = 32 ∧ (0 < sLen ∧ sLen < 10)) ∨ (h.intSize = 64 ∧ (0 < sLen ∧ sLen < 19)) then
    match s with
    | [] => (0, some (syntaxError "Atoi".toList s))
    | c :: rest =>
      let s0 := s
      let s1 := if c = '-' ∨ c = '+' then rest else s
      if (c = '-' ∨ c = '+') ∧ s1.length < 1 then (0, some (syntaxError "Atoi".toList s0))
      else
        match atoiLoop h.intSize s1 0 with
        | none => (0, some (syntaxError "Atoi".toList s0))
        | some n => (if c = '-' then wrapInt h.intSize (-n) else n, none)
  else
    let (i64, err) := ParseInt h s 0
    (wrapInt h.intSize i64, err.map (GoError.retag (some "Atoi".toList) none))

/-- The function `strconv.ParseBool`. -/
def ParseBool (str : GoString) : Bool × Option GoError :=
  if str = "1".toList ∨ str = "t".toList ∨ str = "T".toList ∨ str = "TRUE".toList
      ∨ str = "true".toList ∨ str = "True".toList then (true, none)
  else if str = "0".toList ∨ str = "f".toList ∨ str = "F".toList ∨ str = "FALSE".toList
      ∨ str = "false".toList ∨ str = "False".toList then (false, none)
  else (false, some (syntaxError "ParseBool".toList str))

/-! ## `strings.Split` with the separator `","` -/

/-- The call `strings.Count(s, ",")`. -/
def Count : GoString → Nat
  | [] => 0
  | c :: cs => if c = ',' then Count cs + 1 else Count cs

/-- The call `strings.Index(s, ",")` together with the two slices taken at the
index: `s[:m]` and `s[m+1:]`; `none` when there is no comma. -/
def cutComma : GoString → Option (GoString × GoString)
  | [] => none
  | c :: cs =>
    if c = ',' then some ([], cs)
    else match cutComma cs with
      | some (a, b) => some (c :: a, b)
      | none => none

/-- The loop of `strings.genSplit`: at most `k` cuts, then the rest of the
string is the last element. -/
def genSplit : Nat → GoString → List GoString
  | 0, s => [s]
  | k + 1, s =>
    match cutComma s with
    | none => [s]
    | some (a, b) => a :: genSplit k b

/-- The call `strings.Split(s, ",")`: `genSplit` with `n = Count(s, ",") + 1`,
whose loop runs while `i < n - 1`. -/
def Split (s : GoString) : List GoString := genSplit (Count s) s

/-- The call `strings.Join(elems, ",")`. -/
def Join : List GoString → GoString
  | [] => []
  | [a] => a
  | a :: b :: rest => a ++ ',' :: Join (b :: rest)

/-! ## The response writer and the request -/

/-- An `http.Header` with the keys in canonical form. -/
abbrev Header := List (GoString × List GoString)

/-- The method `Header.Del`. -/
def Header.Del (h : Header) (key : GoString) : Header := h.filter fun kv => kv.1 ≠ key

/-- The method `Header.Set`. -/
def Header.Set (h : Header) (key value : GoString) : Header := (key, [value]) :: Header.Del h key

/-- The method `Header.Get`: the first value of the key, or the empty string. -/
def Header.Get (h : Header) (key : GoString) : GoString :=
  match h.find? fun kv => kv.1 = key with
  | some (_, v :: _) => v
  | _ => []

/-- An `http.ResponseWriter` following the contract of `net/http`, as the
in-memory recorder `httptest.ResponseRecorder` implements it: the header map,
whether the status line has been written, the status code and the bytes of the
body. -/
structure ResponseWriter where
  Header : Header
  wroteHeader : Bool
  Code : Int
  Body : GoString
  deriving DecidableEq

/-- A response writer nothing has been written to. -/
def ResponseWriter.fresh : ResponseWriter :=
  { Header := [], wroteHeader := false, Code := 200, Body := [] }

/-- The result of a method: it returned `val`, or it panicked with `msg`; in
both cases `w` is the response writer as the method left it. -/
inductive Outcome (α : Type) where
  | returned (w : ResponseWriter) (val : α)
  | panicked (w : ResponseWriter) (msg : GoString)

/-- The response writer an outcome leaves behind. -/
def Outcome.response {α : Type} : Outcome α → ResponseWriter
  | .returned w _ => w
  | .panicked w _ => w

/-- The value returned, `none` after a panic. -/
def Outcome.value {α : Type} : Outcome α → Option α
  | .returned _ v => some v
  | .panicked _ _ => none

/-- The method `WriteHeader`: nothing once the status line is written, a panic
for a code that does not have three digits (`checkWriteHeaderCode`). -/
def ResponseWriter.WriteHeader (w : ResponseWriter) (code : Int) : Outcome Unit :=
  if w.wroteHeader then .returned w ()
  else if code < 100 ∨ code > 999 then
    .panicked w ("invalid WriteHeader code ".toList ++ FormatInt code)
  else .returned { w with Code := code, wroteHeader := true } ()

/-- The method `Write`: writes the status line with code 200 if it has not been
written, then appends to the body. -/
def ResponseWriter.Write (w : ResponseWriter) (buf : GoString) : ResponseWriter :=
  let w1 := if w.wroteHeader then w else { w with Code := 200, wroteHeader := true }
  { w1 with Body := w1.Body ++ buf }

/-- The function `http.Error`. -/
def httpError (w : ResponseWriter) (error : GoString) (code : Int) : Outcome Unit :=
  let h1 := Header.Del w.Header "Content-Length".toList
  let h2 := Header.Set h1 "Content-Type".toList "text/plain; charset=utf-8".toList
  let h3 := Header.Set h2 "X-Content-Type-Options".toList "nosniff".toList
  match ResponseWriter.WriteHeader { w with Header := h3 } code with
  | .panicked w1 msg => .panicked w1 msg
  | .returned w1 _ => .returned (w1.Write (error ++ [newline])) ()

/-- An `*http.Request` once its form is parsed: the values of each form key
(none for an absent key) and the body. -/
structure Request where
  Form : GoString → List GoString
  Body : GoString

/-- The method `Request.FormValue`: the first value of the key, or the empty
string. -/
def Request.FormValue (r : Request) (key : GoString) : GoString :=
  match r.Form key with
  | v :: _ => v
  | [] => []

/-! ## `httputil.go` -/

/-- The struct `RequestContext` (the embedded `context.Context` plays no part in
the methods). -/
structure RequestContext where
  Request : Request
  Response : ResponseWriter

/-- The constructor `Context`. -/
def Context (r : Request) (w : ResponseWriter) : RequestContext :=
  { Request := r, Response := w }

/-- The kinds of `reflect.Kind` that `Encode` tells apart. -/
inductive Kind where
  | Invalid
  | Slice
  | Map
  | Other
  deriving DecidableEq

/-- The method `Encode`.  The reflection of `v` (`kindOf`, `lenOf`) and the JSON
encoder with tab indentation (`jsonEncode`: the bytes `enc.Encode(v)` writes, or
`none` when it fails before writing) are parameters. -/
def Encode {υ : Type} (kindOf : υ → Kind) (lenOf : υ → Nat) (jsonEncode : υ → Option GoString)
    (r : RequestContext) (v : υ) : ResponseWriter :=
  let w := { r.Response with
    Header := Header.Set r.Response.Header "Content-Type".toList "application/json".toList }
  if kindOf v = Kind.Slice ∧ lenOf v = 0 then w.Write "[]\n".toList
  else if kindOf v = Kind.Map ∧ lenOf v = 0 then w.Write "\x7b\x7d\n".toList
  else
    match jsonEncode v with
    | some bytes => w.Write bytes
    | none => w

/-- The message of the run-time panic of a use of a nil pointer or nil interface. -/
def nilDereference : GoString :=
  "runtime error: invalid memory address or nil pointer dereference".toList

/-- The method `Error`: a nil `err` panics at `err.Error()`. -/
def Error (h : Host) (r : RequestContext) (err : Option GoError) (status : Int) :
    Outcome (Option GoError) :=
  match err with
  | none => .panicked r.Response nilDereference
  | some e =>
    match httpError r.Response (e.Error h) status with
    | .panicked w msg => .panicked w msg
    | .returned w _ => .returned w (some e)

/-- The method `Decode`.  The JSON decoder (`jsonDecode body v`: the target after
decoding and the decoder's error) and the type name that `%T` prints for the
target are parameters. -/
def Decode {τ : Type} (h : Host) (jsonDecode : GoString → τ → τ × Option GoError)
    (typeName : τ → GoString) (r : RequestContext) (v : τ) : τ × Outcome (Option GoError) :=
  let (v1, err) := jsonDecode r.Request.Body v
  match err with
  | some e =>
    (v1, Error h r (some (.wrapped
      ("couldn't decode request type (".toList ++ typeName v ++ "): ".toList ++ e.Error h) e)) 400)
  | none => (v1, .returned r.Response none)

/-- The method `Check`. -/
def Check (h : Host) (r : RequestContext) (msg : GoString) (err : Option GoError) :
    Outcome (Option GoError) :=
  match err with
  | some e => Error h r (some (.wrapped (msg ++ ": ".toList ++ e.Error h) e)) 500
  | none => .returned r.Response none

/-- The six pointer types the type switch of `DecodeForm` names. -/
inductive PointerKind where
  | string
  | strings
  | int
  | int64
  | uint64
  | bool
  deriving DecidableEq

/-- The argument `v` of `DecodeForm`: a pointer to one of the six types of the
type switch with the value it points to, a nil pointer of one of those types
(`nilPointer`), or a value of any other dynamic type (`named`) with its state and
those of the methods `UnmarshalText` and `LoadString` it has. -/
inductive Target (σ : Type) where
  | named (typeName : GoString) (state : σ)
      (UnmarshalText : Option (GoString → σ → σ × Option GoError))
      (LoadString : Option (GoString → σ → σ × Option GoError))
  | string (v : GoString)
  | strings (v : List GoString)
  | int (v : Int)
  | int64 (v : Int)
  | uint64 (v : Nat)
  | bool (v : Bool)
  | nilPointer (kind : PointerKind)

/-- The type switch of `DecodeForm` (lines 64 to 83): the target and `err` after
the matching case, or the message of the panic.  The default case panics with
`unsupported type %T`; a nil pointer of one of the six types matches its case and
the store through `*v` panics. -/
def typeSwitch {σ : Type} (h : Host) (v : Target σ) (value : GoString) :
    Except GoString (Target σ × Option GoError) :=
  match v with
  | .named name st (some unmarshalText) ls =>
    let (st1, err) := unmarshalText value st
    .ok (.named name st1 (some unmarshalText) ls, err)
  | .named name st none (some loadString) =>
    let (st1, err) := loadString value st
    .ok (.named name st1 none (some loadString), err)
  | .string _ => .ok (.string value, none)
  | .strings _ => .ok (.strings (Split value), none)
  | .int _ => let (n, err) := Atoi h value; .ok (.int n, err)
  | .int64 _ => let (n, err) := ParseInt h value 64; .ok (.int64 n, err)
  | .uint64 _ => let (n, err) := ParseUint h value 64; .ok (.uint64 n, err)
  | .bool _ => let (b, err) := ParseBool value; .ok (.bool b, err)
  | .nilPointer _ => .error nilDereference
  | .named name _ none none => .error ("unsupported type ".toList ++ name)

/-- The method `DecodeForm`: the target after the call and the outcome. -/
def DecodeForm {σ : Type} (h : Host) (r : RequestContext) (key : GoString) (v : Target σ) :
    Target σ × Outcome (Option GoError) :=
  let value := r.Request.FormValue key
  if value = [] then (v, .returned r.Response none)
  else
    match typeSwitch h v value with
    | .error msg => (v, .panicked r.Response msg)
    | .ok (v1, err) =>
      match err with
      | some e =>
        (v1, Error h r (some (.wrapped
          ("invalid form value ".toList ++ Quote h key ++ ": ".toList ++ e.Error h) e)) 400)
      | none => (v1, .returned r.Response none)

/-- A host with 64-bit `int` on which every code point above U+00FF prints. -/
def host64 : Host := { is64 := true, isPrintWide := fun _ => true }

/-- A host with 32-bit `int`. -/
def host32 : Host := { is64 := false, isPrintWide := fun _ => true }

/-- A request whose form gives every key the single value `value`. -/
def formRequest (value : GoString) : Request := { Form := fun _ => [value], Body := [] }

/-- A request with an empty form and the given body. -/
def bodyRequest (body : GoString) : Request := { Form := fun _ => [], Body := body }

/-- The headers `http.Error` leaves on a fresh response. -/
def errorHeader : Header :=
  [("X-Content-Type-Options".toList, ["nosniff".toList]),
   ("Content-Type".toList, ["text/plain; charset=utf-8".toList])]

/-- The response `http.Error` leaves when called with `msg` and `code` on a fresh
response: the plain-text headers, the status and the message with a newline. -/
def errorResponse (msg : GoString) (code : Int) : ResponseWriter :=
  { Header := errorHeader, wroteHeader := true, Code := code, Body := msg ++ [newline] }

/-- The response `http.Error` leaves when called with `msg` and `code` on the
response `w`, whatever its state: the plain-text headers are set, the status
becomes `code` unless the status line was already written, and the message with a
newline is appended to the body. -/
def reportedResponse (w : ResponseWriter) (msg : GoString) (code : Int) : ResponseWriter :=
  { Header := Header.Set
      (Header.Set (Header.Del w.Header "Content-Length".toList)
        "Content-Type".toList "text/plain; charset=utf-8".toList)
      "X-Content-Type-Options".toList "nosniff".toList,
    wroteHeader := true,
    Code := if w.wroteHeader then w.Code else code,
    Body := w.Body ++ (msg ++ [newline]) }

/-- A response whose status line is already written: status 200, a JSON content
type and the body of an empty list, as `Encode` leaves it. -/
def writtenResponse : ResponseWriter :=
  { Header := [("Content-Type".toList, ["application/json".toList])],
    wroteHeader := true, Code := 200, Body := "[]\n".toList }

/-- A JSON decoder for the sanity checks: it accepts the body `ok` and nothing
else, and never changes the target. -/
def sampleDecoder (body : GoString) (v : Unit) : Unit × Option GoError :=
  (v, if body = "ok".toList then none else some (.plain "unexpected end of JSON input".toList))

/-- A target of a type outside the type switch, without methods. -/
def bareTarget : Target Unit := .named "*float64".toList () none none

/-- A target whose `UnmarshalText` stores nothing and always fails. -/
def failingTarget : Target Unit :=
  .named "*main.ID".toList () (some fun _ st => (st, some (.plain "bad id".toList))) none

/-- The error `DecodeForm` builds with `fmt.Errorf("invalid form value %q: %w", key, err)`. -/
def formError (h : Host) (key : GoString) (e : GoError) : GoError :=
  .wrapped ("invalid form value ".toList ++ Quote h key ++ ": ".toList ++ e.Error h) e

/-- A form key that contains a double quote: the three characters a, double quote, b. -/
def quotedKey : GoString := ['a', dquote, 'b']

/-! ## Theorems -/

theorem FormatInt_sample : FormatInt (-1234) = "-1234".toList := by decide

theorem FormatUint_zero : FormatUint 0 = "0".toList := by decide

theorem ParseUint_max_sample :
    ParseUint host64 "18446744073709551615".toList 64 = (18446744073709551615, none) := by
  decide

theorem ParseUint_overflow_sample :
    ParseUint host64 "18446744073709551616".toList 64
      = (18446744073709551615,
         some (rangeError "ParseUint".toList "18446744073709551616".toList)) := by
  decide

theorem ParseInt_min_sample :
    ParseInt host64 "-9223372036854775808".toList 64 = (-9223372036854775808, none) := by
  decide

theorem Atoi_sample : Atoi host32 "+12a".toList
    = (0, some (syntaxError "Atoi".toList "+12a".toList)) := by
  decide

theorem Split_sample : Split "3,4,5".toList = ["3".toList, "4".toList, "5".toList] := by decide

theorem httpError_fresh (msg : GoString) (code : Int) (hc : 100 ≤ code ∧ code ≤ 999) :
    httpError ResponseWriter.fresh msg code = .returned (errorResponse msg code) () := by
  have h1 : ¬ (code < 100 ∨ code > 999) := by omega
  simp only [httpError, ResponseWriter.fresh, ResponseWriter.WriteHeader, h1, if_false,
    Bool.false_eq_true, ResponseWriter.Write, errorResponse, List.nil_append]
  rfl

theorem Error_fresh (h : Host) (req : Request) (e : GoError) (code : Int)
    (hc : 100 ≤ code ∧ code ≤ 999) :
    Error h (Context req ResponseWriter.fresh) (some e) code
      = .returned (errorResponse (e.Error h) code) (some e) := by
  simp only [Error, Context, httpError_fresh _ _ hc]

theorem errorHeader_contentType :
    Header.Get errorHeader "Content-Type".toList = "text/plain; charset=utf-8".toList := by
  decide

/-- C1: for a non-nil error `err` and a status code `s` (a three-digit code, which
is what `WriteHeader` accepts), `Error(err, s)` on a fresh response returns, leaves
status `s`, the plain-text content type and the body `err.Error()` followed by a
newline, and the value returned is `err` itself. -/
theorem Error_writes_status_and_returns_err (h : Host) (req : Request) (err : GoError) (s : Int)
    (hs : 100 ≤ s ∧ s ≤ 999) :
    Error h (Context req ResponseWriter.fresh) (some err) s
        = .returned
            { Header := errorHeader, wroteHeader := true, Code := s,
              Body := err.Error h ++ [newline] }
            (some err)
      ∧ Header.Get errorHeader "Content-Type".toList = "text/plain; charset=utf-8".toList := by
  exact ⟨Error_fresh h req err s hs, errorHeader_contentType⟩

theorem Error_writes_status_and_returns_err_witness :
    (100 ≤ (404 : Int) ∧ (404 : Int) ≤ 999)
      ∧ Error host64 (Context (bodyRequest []) ResponseWriter.fresh)
          (some (GoError.plain "not found".toList)) 404
        = .returned
            { Header := errorHeader, wroteHeader := true, Code := 404,
              Body := "not found\n".toList }
            (some (GoError.plain "not found".toList)) :=
  ⟨by decide,
   (Error_writes_status_and_returns_err host64 (bodyRequest []) (.plain "not found".toList) 404
      (by decide)).1⟩

theorem httpError_any (w : ResponseWriter) (msg : GoString) (code : Int)
    (hc : 100 ≤ code ∧ code ≤ 999) :
    httpError w msg code = .returned (reportedResponse w msg code) () := by
  have h1 : ¬ (code < 100 ∨ code > 999) := by omega
  cases hw : w.wroteHeader <;>
    simp [httpError, ResponseWriter.WriteHeader, ResponseWriter.Write, reportedResponse, hw, h1]

theorem Error_any (h : Host) (req : Request) (w : ResponseWriter) (e : GoError) (code : Int)
    (hc : 100 ≤ code ∧ code ≤ 999) :
    Error h (Context req w) (some e) code
      = .returned (reportedResponse w (e.Error h) code) (some e) := by
  simp only [Error, Context, httpError_any _ _ _ hc]

theorem reportedResponse_fresh (msg : GoString) (code : Int) :
    reportedResponse ResponseWriter.fresh msg code
      = { Header := errorHeader, wroteHeader := true, Code := code, Body := msg ++ [newline] } :=
  rfl

theorem reportedResponse_unwritten (w : ResponseWriter) (msg : GoString) (code : Int)
    (hw : w.wroteHeader = false) : (reportedResponse w msg code).Code = code := by
  simp [reportedResponse, hw]

theorem reportedResponse_written (w : ResponseWriter) (msg : GoString) (code : Int)
    (hw : w.wroteHeader = true) : (reportedResponse w msg code).Code = w.Code := by
  simp [reportedResponse, hw]

/-- C2, as the code has it: `Check(msg, nil)` returns nil and leaves the response
writer exactly as it was; for a non-nil `err` and a response writer `w` in any
state, `Check(msg, err)` returns a non-nil error whose message is
`msg ++ ": " ++ err.Error()` and whose `Unwrap` is `err`, sets the plain-text
headers and appends that message followed by a newline to the body; the status
becomes 500 when the status line was not written before and stays as it was
otherwise; on a fresh response the status is 500 and the body is the message
followed by a newline. -/
theorem Check_nil_passthrough_and_wraps (h : Host) (req : Request) (w : ResponseWriter)
    (msg : GoString) (err : GoError) :
    Check h (Context req w) msg none = .returned w none
      ∧ Check h (Context req w) msg (some err)
          = .returned (reportedResponse w (msg ++ ": ".toList ++ err.Error h) 500)
              (some (GoError.wrapped (msg ++ ": ".toList ++ err.Error h) err))
      ∧ (Check h (Context req w) msg (some err)).response.Body
          = w.Body ++ (msg ++ ": ".toList ++ err.Error h ++ [newline])
      ∧ (w.wroteHeader = false → (Check h (Context req w) msg (some err)).response.Code = 500)
      ∧ (w.wroteHeader = true → (Check h (Context req w) msg (some err)).response.Code = w.Code)
      ∧ Check h (Context req ResponseWriter.fresh) msg (some err)
          = .returned
              { Header := errorHeader, wroteHeader := true, Code := 500,
                Body := msg ++ ": ".toList ++ err.Error h ++ [newline] }
              (some (GoError.wrapped (msg ++ ": ".toList ++ err.Error h) err))
      ∧ (GoError.wrapped (msg ++ ": ".toList ++ err.Error h) err).Error h
          = msg ++ ": ".toList ++ err.Error h
      ∧ (GoError.wrapped (msg ++ ": ".toList ++ err.Error h) err).Unwrap = some err := by
  have hany : ∀ w1 : ResponseWriter, Check h (Context req w1) msg (some err)
      = .returned (reportedResponse w1 (msg ++ ": ".toList ++ err.Error h) 500)
          (some (GoError.wrapped (msg ++ ": ".toList ++ err.Error h) err)) := by
    intro w1
    simp only [Check, Error_any h req w1 _ 500 (by decide), GoError.Error]
  refine ⟨rfl, hany w, ?_, ?_, ?_, ?_, rfl, rfl⟩
  · rw [hany w]
    simp [Outcome.response, reportedResponse]
  · intro hw
    rw [hany w]
    exact reportedResponse_unwritten w _ 500 hw
  · intro hw
    rw [hany w]
    exact reportedResponse_written w _ 500 hw
  · rw [hany, reportedResponse_fresh]

theorem Check_nil_passthrough_and_wraps_witness :
    (Check host64 (Context (bodyRequest []) ResponseWriter.fresh) "db".toList
        (some (GoError.plain "down".toList))).response.Code = 500
      ∧ (Check host64 (Context (bodyRequest []) writtenResponse) "db".toList
        (some (GoError.plain "down".toList))).response.Code = 200
      ∧ (Check host64 (Context (bodyRequest []) writtenResponse) "db".toList
        (some (GoError.plain "down".toList))).response.Body = "[]\ndb: down\n".toList :=
  ⟨(Check_nil_passthrough_and_wraps host64 (bodyRequest []) ResponseWriter.fresh "db".toList
      (.plain "down".toList)).2.2.2.1 rfl,
   (Check_nil_passthrough_and_wraps host64 (bodyRequest []) writtenResponse "db".toList
      (.plain "down".toList)).2.2.2.2.1 rfl,
   (Check_nil_passthrough_and_wraps host64 (bodyRequest []) writtenResponse "db".toList
      (.plain "down".toList)).2.2.1⟩

/-- C2, counterexample: for `msg = db` and an error with message `down`, the error
returned has the message `db: down`, but on a fresh response the body is not that
message (it is the message followed by a newline), and on a response whose status
line was already written with 200 the status after `Check` is still 200, not 500,
and the message is appended to the body already written. -/
theorem Check_body_newline_and_status_kept :
    (Check host64 (Context (bodyRequest []) ResponseWriter.fresh) "db".toList
        (some (GoError.plain "down".toList))).value
      = some (some (GoError.wrapped "db: down".toList (GoError.plain "down".toList)))
    ∧ (Check host64 (Context (bodyRequest []) ResponseWriter.fresh) "db".toList
        (some (GoError.plain "down".toList))).response.Body ≠ "db: down".toList
    ∧ (Check host64 (Context (bodyRequest []) ResponseWriter.fresh) "db".toList
        (some (GoError.plain "down".toList))).response.Body = "db: down\n".toList
    ∧ (Check host64 (Context (bodyRequest []) writtenResponse) "db".toList
        (some (GoError.plain "down".toList))).response.Code = 200
    ∧ (Check host64 (Context (bodyRequest []) writtenResponse) "db".toList
        (some (GoError.plain "down".toList))).response.Code ≠ 500
    ∧ (Check host64 (Context (bodyRequest []) writtenResponse) "db".toList
        (some (GoError.plain "down".toList))).response.Body = "[]\ndb: down\n".toList := by
  refine ⟨by decide, by decide, by decide, by decide, by decide, by decide⟩

/-- C3, as the code has it: when the JSON decoder fails with `e` on the request
body, `Decode`, in any state of the response writer `w`, returns a non-nil error
with the message `couldn't decode request type (<type name of v>): <e.Error()>`,
which wraps `e` and contains the type name, sets the plain-text headers and appends
that message followed by a newline to the body; the status becomes 400 when the
status line was not written before and stays as it was otherwise; on a fresh
response the status is 400 and the body is the message followed by a newline.
When the decoder succeeds, `Decode` returns nil and the response writer is exactly
as it was. -/
theorem Decode_reports_400_or_leaves_response {τ : Type} (h : Host)
    (jsonDecode : GoString → τ → τ × Option GoError) (typeName : τ → GoString)
    (req : Request) (w : ResponseWriter) (v : τ) :
    (∀ e, (jsonDecode req.Body v).2 = some e →
        (Decode h jsonDecode typeName (Context req w) v).2
            = .returned
                (reportedResponse w
                  ("couldn't decode request type (".toList ++ typeName v ++ "): ".toList
                    ++ e.Error h) 400)
                (some (GoError.wrapped
                  ("couldn't decode request type (".toList ++ typeName v ++ "): ".toList
                    ++ e.Error h) e))
          ∧ (Decode h jsonDecode typeName (Context req w) v).2.response.Body
              = w.Body ++ ("couldn't decode request type (".toList ++ typeName v ++ "): ".toList
                    ++ e.Error h ++ [newline])
          ∧ (w.wroteHeader = false →
              (Decode h jsonDecode typeName (Context req w) v).2.response.Code = 400)
          ∧ (w.wroteHeader = true →
              (Decode h jsonDecode typeName (Context req w) v).2.response.Code = w.Code)
          ∧ (Decode h jsonDecode typeName (Context req ResponseWriter.fresh) v).2
            = .returned
                { Header := errorHeader, wroteHeader := true, Code := 400,
                  Body := "couldn't decode request type (".toList ++ typeName v ++ "): ".toList
                            ++ e.Error h ++ [newline] }
                (some (GoError.wrapped
                  ("couldn't decode request type (".toList ++ typeName v ++ "): ".toList
                    ++ e.Error h) e))
          ∧ typeName v <:+: (GoError.wrapped
                  ("couldn't decode request type (".toList ++ typeName v ++ "): ".toList
                    ++ e.Error h) e).Error h)
      ∧ ((jsonDecode req.Body v).2 = none →
          (Decode h jsonDecode typeName (Context req w) v).2 = .returned w none) := by
  constructor
  · intro e he
    have hany : ∀ w1 : ResponseWriter, (Decode h jsonDecode typeName (Context req w1) v).2
        = .returned
            (reportedResponse w1
              ("couldn't decode request type (".toList ++ typeName v ++ "): ".toList
                ++ e.Error h) 400)
            (some (GoError.wrapped
              ("couldn't decode request type (".toList ++ typeName v ++ "): ".toList
                ++ e.Error h) e)) := by
      intro w1
      simp only [Decode, Context, he]
      exact Error_any h req w1 _ 400 (by decide)
    refine ⟨hany w, ?_, ?_, ?_, ?_, ?_⟩
    · rw [hany w]
      simp [Outcome.response, reportedResponse]
    · intro hw
      rw [hany w]
      exact reportedResponse_unwritten w _ 400 hw
    · intro hw
      rw [hany w]
      exact reportedResponse_written w _ 400 hw
    · rw [hany, reportedResponse_fresh]
    · exact ⟨"couldn't decode request type (".toList, "): ".toList ++ e.Error h, by
        simp [GoError.Error]⟩
  · intro he
    simp only [Decode, Context, he]

theorem Decode_reports_400_or_leaves_response_witness :
    ((Decode host64 sampleDecoder (fun _ => "*main.T".toList)
          (Context (bodyRequest "oops".toList) ResponseWriter.fresh) ()).2
        = .returned
            { Header := errorHeader, wroteHeader := true, Code := 400,
              Body := "couldn't decode request type (*main.T): unexpected end of JSON input\n".toList }
            (some (GoError.wrapped
              "couldn't decode request type (*main.T): unexpected end of JSON input".toList
              (.plain "unexpected end of JSON input".toList))))
      ∧ (Decode host64 sampleDecoder (fun _ => "*main.T".toList)
          (Context (bodyRequest "oops".toList) writtenResponse) ()).2.response.Code = 200
      ∧ (Decode host64 sampleDecoder (fun _ => "*main.T".toList)
          (Context (bodyRequest "ok".toList) ResponseWriter.fresh) ()).2
        = .returned ResponseWriter.fresh none :=
  ⟨((Decode_reports_400_or_leaves_response host64 sampleDecoder (fun _ => "*main.T".toList)
      (bodyRequest "oops".toList) ResponseWriter.fresh ()).1
        (.plain "unexpected end of JSON input".toList) (by decide)).2.2.2.2.1,
   ((Decode_reports_400_or_leaves_response host64 sampleDecoder (fun _ => "*main.T".toList)
      (bodyRequest "oops".toList) writtenResponse ()).1
        (.plain "unexpected end of JSON input".toList) (by decide)).2.2.2.1 rfl,
   (Decode_reports_400_or_leaves_response host64 sampleDecoder (fun _ => "*main.T".toList)
      (bodyRequest "ok".toList) ResponseWriter.fresh ()).2 (by decide)⟩

/-- C3, counterexample: on a response whose status line was already written with
200, a `Decode` whose decoder fails returns the non-nil error, but the status
stays 200 instead of 400, and the message is appended to the body already
written. -/
theorem Decode_failure_keeps_written_status :
    (Decode host64 sampleDecoder (fun _ => "*main.T".toList)
        (Context (bodyRequest "oops".toList) writtenResponse) ()).2.value
      = some (some (GoError.wrapped
          "couldn't decode request type (*main.T): unexpected end of JSON input".toList
          (.plain "unexpected end of JSON input".toList)))
    ∧ (Decode host64 sampleDecoder (fun _ => "*main.T".toList)
        (Context (bodyRequest "oops".toList) writtenResponse) ()).2.response.Code = 200
    ∧ (Decode host64 sampleDecoder (fun _ => "*main.T".toList)
        (Context (bodyRequest "oops".toList) writtenResponse) ()).2.response.Code ≠ 400
    ∧ (Decode host64 sampleDecoder (fun _ => "*main.T".toList)
        (Context (bodyRequest "oops".toList) writtenResponse) ()).2.response.Body
      = "[]\ncouldn't decode request type (*main.T): unexpected end of JSON input\n".toList := by
  refine ⟨by decide, by decide, by decide, by decide⟩

theorem FormValue_empty_of_absent_or_empty (req : Request) (key : GoString)
    (hk : req.Form key = [] ∨ ∃ rest, req.Form key = [] :: rest) : req.FormValue key = [] := by
  rcases hk with hk | ⟨rest, hk⟩ <;> simp [Request.FormValue, hk]

/-- C4: when the form field of `key` is absent, or its (first) value is the empty
string, `DecodeForm(key, target)` returns nil without panicking, the target is
unchanged and the response writer is exactly as it was, for every target of every
kind (with a capability, one of the six pointer kinds, or unsupported). -/
theorem DecodeForm_absent_or_empty_is_noop {σ : Type} (h : Host) (req : Request)
    (w : ResponseWriter) (key : GoString) (v : Target σ)
    (hk : req.Form key = [] ∨ ∃ rest, req.Form key = [] :: rest) :
    DecodeForm h (Context req w) key v = (v, .returned w none) := by
  have hv := FormValue_empty_of_absent_or_empty req key hk
  simp only [DecodeForm, Context, hv, if_true]

theorem DecodeForm_absent_or_empty_is_noop_witness :
    DecodeForm host64 (Context (bodyRequest []) ResponseWriter.fresh) "page".toList bareTarget
        = (bareTarget, .returned ResponseWriter.fresh none)
      ∧ DecodeForm host64 (Context (formRequest []) ResponseWriter.fresh) "page".toList
          (Target.int 7 : Target Unit)
        = (Target.int 7, .returned ResponseWriter.fresh none) :=
  ⟨DecodeForm_absent_or_empty_is_noop host64 (bodyRequest []) ResponseWriter.fresh
      "page".toList bareTarget (Or.inl rfl),
   DecodeForm_absent_or_empty_is_noop host64 (formRequest []) ResponseWriter.fresh
      "page".toList (Target.int 7) (Or.inr ⟨[], rfl⟩)⟩

/-- C6: for a value whose kind is a slice of length 0, `Encode` sets the header
`Content-Type: application/json` and makes the single write `[]` plus newline; for
a map of length 0 the single write is the two braces plus newline; on a fresh
response the body is exactly those three bytes.  The result does not depend on the
JSON serializer, which is not consulted. -/
theorem Encode_empty_slice_and_map {υ : Type} (kindOf : υ → Kind) (lenOf : υ → Nat)
    (jsonEncode : υ → Option GoString) (req : Request) (w : ResponseWriter) (v : υ)
    (hlen : lenOf v = 0) :
    (kindOf v = Kind.Slice →
        Encode kindOf lenOf jsonEncode (Context req w) v
            = ResponseWriter.Write
                { w with Header :=
                    (Header.Set w.Header "Content-Type".toList "application/json".toList) }
                "[]\n".toList
          ∧ Encode kindOf lenOf jsonEncode (Context req ResponseWriter.fresh) v
            = { Header := [("Content-Type".toList, ["application/json".toList])],
                wroteHeader := true, Code := 200, Body := "[]\n".toList })
      ∧ (kindOf v = Kind.Map →
        Encode kindOf lenOf jsonEncode (Context req w) v
            = ResponseWriter.Write
                { w with Header :=
                    (Header.Set w.Header "Content-Type".toList "application/json".toList) }
                "\x7b\x7d\n".toList
          ∧ Encode kindOf lenOf jsonEncode (Context req ResponseWriter.fresh) v
            = { Header := [("Content-Type".toList, ["application/json".toList])],
                wroteHeader := true, Code := 200, Body := "\x7b\x7d\n".toList }) := by
  constructor
  · intro hk
    constructor
    · simp [Encode, Context, hk, hlen]
    · simp only [Encode, Context, hk, hlen, and_self, if_true]
      rfl
  · intro hk
    constructor
    · simp [Encode, Context, hk, hlen]
    · simp only [Encode, Context, hk, hlen, and_self, and_true, if_true, reduceCtorEq, if_false]
      rfl

theorem Encode_empty_slice_and_map_witness :
    Encode (fun _ : List Nat => Kind.Slice) List.length (fun _ => some "null\n".toList)
        (Context (bodyRequest []) ResponseWriter.fresh) []
      = { Header := [("Content-Type".toList, ["application/json".toList])],
          wroteHeader := true, Code := 200, Body := "[]\n".toList }
    ∧ Encode (fun _ : List Nat => Kind.Map) List.length (fun _ => some "null\n".toList)
        (Context (bodyRequest []) ResponseWriter.fresh) []
      = { Header := [("Content-Type".toList, ["application/json".toList])],
          wroteHeader := true, Code := 200, Body := "\x7b\x7d\n".toList } :=
  ⟨((Encode_empty_slice_and_map (fun _ : List Nat => Kind.Slice) List.length
      (fun _ => some "null\n".toList) (bodyRequest []) ResponseWriter.fresh [] rfl).1 rfl).2,
   ((Encode_empty_slice_and_map (fun _ : List Nat => Kind.Map) List.length
      (fun _ => some "null\n".toList) (bodyRequest []) ResponseWriter.fresh [] rfl).2 rfl).2⟩

theorem DecodeForm_of_typeSwitch_ok {σ : Type} (h : Host) (req : Request) (w : ResponseWriter)
    (key : GoString) (v v1 : Target σ) (hv : req.FormValue key ≠ [])
    (hs : typeSwitch h v (req.FormValue key) = .ok (v1, none)) :
    DecodeForm h (Context req w) key v = (v1, .returned w none) := by
  simp only [DecodeForm, Context, hv, if_false, hs]

theorem DecodeForm_of_typeSwitch_err {σ : Type} (h : Host) (req : Request) (w : ResponseWriter)
    (key : GoString) (v v1 : Target σ) (e : GoError) (hv : req.FormValue key ≠ [])
    (hs : typeSwitch h v (req.FormValue key) = .ok (v1, some e)) :
    DecodeForm h (Context req w) key v
      = (v1, Error h (Context req w) (some (.wrapped
          ("invalid form value ".toList ++ Quote h key ++ ": ".toList ++ e.Error h) e)) 400) := by
  simp only [DecodeForm, Context, hv, if_false, hs]

theorem DecodeForm_failure_any {σ : Type} (h : Host) (req : Request) (w : ResponseWriter)
    (key : GoString) (v v1 : Target σ) (e : GoError) (hv : req.FormValue key ≠ [])
    (hs : typeSwitch h v (req.FormValue key) = .ok (v1, some e)) :
    DecodeForm h (Context req w) key v
      = (v1, .returned (reportedResponse w ((formError h key e).Error h) 400)
          (some (formError h key e))) := by
  rw [DecodeForm_of_typeSwitch_err h req w key v v1 e hv hs]
  rw [Error_any h req w _ 400 (by decide)]
  rfl

theorem Count_eq_count (s : GoString) : Count s = s.count ',' := by
  induction s with
  | nil => rfl
  | cons c cs ih =>
    by_cases hc : c = ','
    · simp [Count, hc, ih]
    · have hc2 : ¬ (',' = c) := fun e => hc e.symm
      simp [Count, hc, ih, List.count_cons, hc2]

theorem cutComma_none (s : GoString) (hs : cutComma s = none) : ',' ∉ s ∧ Count s = 0 := by
  induction s with
  | nil => simp [Count]
  | cons c cs ih =>
    by_cases hc : c = ','
    · simp [cutComma, hc] at hs
    · simp only [cutComma, hc, if_false] at hs
      rcases hcs : cutComma cs with _ | ⟨a, b⟩
      · have := ih hcs
        have hc2 : ¬ (',' = c) := fun e => hc e.symm
        simp [Count, hc, hc2, this.1, this.2]
      · simp [hcs] at hs

theorem cutComma_some (s a b : GoString) (hs : cutComma s = some (a, b)) :
    s = a ++ ',' :: b ∧ ',' ∉ a ∧ Count s = Count b + 1 := by
  induction s generalizing a with
  | nil => simp [cutComma] at hs
  | cons c cs ih =>
    by_cases hc : c = ','
    · simp only [cutComma, hc, if_true, Option.some.injEq, Prod.mk.injEq] at hs
      obtain ⟨rfl, rfl⟩ := hs
      simp [Count, hc]
    · simp only [cutComma, hc, if_false] at hs
      rcases hcs : cutComma cs with _ | ⟨a1, b1⟩
      · simp [hcs] at hs
      · simp only [hcs, Option.some.injEq, Prod.mk.injEq] at hs
        obtain ⟨rfl, rfl⟩ := hs
        obtain ⟨h1, h2, h3⟩ := ih a1 hcs
        have hc2 : ¬ (',' = c) := fun e => hc e.symm
        refine ⟨by rw [h1]; simp, by simp [hc2, h2], by simp [Count, hc, h3]⟩

theorem genSplit_ne_nil (k : Nat) (s : GoString) : genSplit k s ≠ [] := by
  cases k with
  | zero => simp [genSplit]
  | succ k =>
    rcases hcs : cutComma s with _ | ⟨a, b⟩ <;> simp [genSplit, hcs]

theorem Join_cons (a : GoString) (l : List GoString) (hl : l ≠ []) :
    Join (a :: l) = a ++ ',' :: Join l := by
  cases l with
  | nil => exact absurd rfl hl
  | cons b rest => rfl

theorem genSplit_spec (k : Nat) (s : GoString) (hk : Count s ≤ k) :
    (genSplit k s).length = Count s + 1 ∧ (∀ t ∈ genSplit k s, ',' ∉ t)
      ∧ Join (genSplit k s) = s := by
  induction k generalizing s with
  | zero =>
    have h0 : Count s = 0 := by omega
    have hno : ',' ∉ s := by
      rw [Count_eq_count] at h0
      exact List.count_eq_zero.1 h0
    simp [genSplit, h0, hno, Join]
  | succ k ih =>
    rcases hcs : cutComma s with _ | ⟨a, b⟩
    · have := cutComma_none s hcs
      simp [genSplit, hcs, this.1, this.2, Join]
    · obtain ⟨h1, h2, h3⟩ := cutComma_some s a b hcs
      obtain ⟨i1, i2, i3⟩ := ih b (by omega)
      simp only [genSplit, hcs]
      refine ⟨by simp [i1, h3], ?_, ?_⟩
      · intro t ht
        rcases List.mem_cons.1 ht with rfl | ht
        · exact h2
        · exact i2 t ht
      · rw [Join_cons a _ (genSplit_ne_nil k b), i3, h1]

/-- C7: for a non-empty field value `s`, `DecodeForm` into a `*[]string` target
returns nil, leaves the response writer exactly as it was, and sets the target to
`strings.Split(s, ",")`; that list has one element more than `s` has commas, no
element contains a comma, and joining the elements with commas gives back `s`
(so empty tokens are kept, in order). -/
theorem DecodeForm_strings_splits_at_commas (h : Host) (req : Request) (w : ResponseWriter)
    (key : GoString) (old : List GoString) (hv : req.FormValue key ≠ []) :
    DecodeForm h (Context req w) key (Target.strings old : Target Unit)
        = (Target.strings (Split (req.FormValue key)), .returned w none)
      ∧ (Split (req.FormValue key)).length = (req.FormValue key).count ',' + 1
      ∧ (∀ t ∈ Split (req.FormValue key), ',' ∉ t)
      ∧ Join (Split (req.FormValue key)) = req.FormValue key := by
  obtain ⟨h1, h2, h3⟩ := genSplit_spec (Count (req.FormValue key)) (req.FormValue key) le_rfl
  refine ⟨?_, by rw [← Count_eq_count]; exact h1, h2, h3⟩
  exact DecodeForm_of_typeSwitch_ok h req w key _ _ hv rfl

theorem DecodeForm_strings_splits_at_commas_witness :
    DecodeForm host64 (Context (formRequest "3,4,5".toList) ResponseWriter.fresh) "ids".toList
        (Target.strings ["x".toList] : Target Unit)
      = (Target.strings ["3".toList, "4".toList, "5".toList], .returned ResponseWriter.fresh none)
    ∧ Split "a,,b,".toList = ["a".toList, [], "b".toList, []] :=
  ⟨(DecodeForm_strings_splits_at_commas host64 (formRequest "3,4,5".toList) ResponseWriter.fresh
      "ids".toList ["x".toList] (by decide)).1,
   by decide⟩

theorem digitChar_toNat (d : Nat) (hd : d < 10) : (Nat.digitChar d).toNat = d + 48 := by
  interval_cases d <;> rfl

theorem cutoff_val : maxUint64 / 10 + 1 = 1844674407370955162 := by decide

theorem parseUintLoop_digit (s0 : GoString) (mv : Nat) (cs : GoString) (n d : Nat)
    (hd : d < 10) (hn : n * 10 + d ≤ mv) (hmv : mv < 2 ^ 64) :
    parseUintLoop s0 mv (Nat.digitChar d :: cs) n = parseUintLoop s0 mv cs (n * 10 + d) := by
  have h1 : 48 ≤ d + 48 ∧ d + 48 ≤ 57 := by omega
  have h2 : ¬ (d + 48 - 48 ≥ 10) := by omega
  have h3 : ¬ (n ≥ 1844674407370955162) := by
    norm_num at hmv
    omega
  have h4 : n * 10 % 2 ^ 64 = n * 10 := Nat.mod_eq_of_lt (by omega)
  have h5 : (n * 10 + (d + 48 - 48)) % 2 ^ 64 = n * 10 + d := by
    rw [Nat.add_sub_cancel]
    exact Nat.mod_eq_of_lt (by omega)
  have h6 : ¬ (n * 10 + d < n * 10 ∨ n * 10 + d > mv) := by omega
  rw [parseUintLoop]
  simp only [digitChar_toNat d hd, h1, and_self, if_true, h2, if_false, cutoff_val, h3, h4, h5, h6]

theorem parseUintLoop_decimalFuel (s0 : GoString) (mv : Nat) (hmv : mv < 2 ^ 64) (fuel : Nat) :
    ∀ (n : Nat) (rest : GoString), n < fuel → n ≤ mv →
      parseUintLoop s0 mv (decimalFuel fuel n ++ rest) 0 = parseUintLoop s0 mv rest n := by
  induction fuel with
  | zero => intro n rest hn; omega
  | succ fuel ih =>
    intro n rest hn hle
    by_cases h10 : n < 10
    · simp only [decimalFuel, h10, if_true, List.singleton_append]
      rw [parseUintLoop_digit s0 mv rest 0 n h10 (by omega) hmv]
      simp
    · simp only [decimalFuel, h10, if_false, List.append_assoc, List.singleton_append]
      rw [ih (n / 10) _ (by omega) (by omega)]
      rw [parseUintLoop_digit s0 mv rest (n / 10) (n % 10) (by omega) (by omega) hmv]
      congr 1
      omega

theorem decimalFuel_head (fuel : Nat) :
    ∀ n, n < fuel → ∃ d rest, d < 10 ∧ decimalFuel fuel n = Nat.digitChar d :: rest := by
  induction fuel with
  | zero => intro n hn; omega
  | succ fuel ih =>
    intro n hn
    by_cases h10 : n < 10
    · exact ⟨n, [], h10, by simp [decimalFuel, h10]⟩
    · obtain ⟨d, rest, hd, hr⟩ := ih (n / 10) (by omega)
      exact ⟨d, rest ++ [Nat.digitChar (n % 10)], hd, by simp [decimalFuel, h10, hr]⟩

theorem FormatUint_head (m : Nat) :
    ∃ d rest, d < 10 ∧ FormatUint m = Nat.digitChar d :: rest :=
  decimalFuel_head (m + 1) m (by omega)

theorem maxVal64 : (2 ^ 64 % 2 ^ 64 + 2 ^ 64 - 1) % 2 ^ 64 = 2 ^ 64 - 1 := by norm_num

theorem ParseUint_FormatUint (h : Host) (m : Nat) (hm : m < 2 ^ 64) :
    ParseUint h (FormatUint m) 64 = (m, none) := by
  obtain ⟨d, rest, _, hr⟩ := FormatUint_head m
  have hne : FormatUint m ≠ [] := by rw [hr]; simp
  have hloop := parseUintLoop_decimalFuel (FormatUint m) (2 ^ 64 - 1) (by norm_num) (m + 1) m []
    (by omega) (by omega)
  simp only [List.append_nil] at hloop
  simp only [ParseUint, hne, if_false, maxVal64]
  simpa [FormatUint, parseUintLoop] using hloop

theorem wrapInt64_of_range (z : Int) (h1 : -2 ^ 63 ≤ z) (h2 : z < 2 ^ 63) : wrapInt 64 z = z := by
  simp only [wrapInt]
  norm_num at h1 h2 ⊢
  omega

theorem ParseInt_unsigned (h : Host) (c : Char) (rest : GoString) (un : Nat)
    (hplus : c ≠ '+') (hminus : c ≠ '-') (hp : ParseUint h (c :: rest) 64 = (un, none))
    (hun : un < 2 ^ 63) : ParseInt h (c :: rest) 64 = ((un : Int), none) := by
  have hw : wrapInt 64 (un : Int) = un := wrapInt64_of_range _ (by norm_num; omega) (by
    norm_num at hun ⊢; omega)
  have hun1 : un < 9223372036854775808 := by norm_num at hun; exact hun
  simp [ParseInt, hplus, hminus, hp, hw, hun1]

theorem ParseInt_minus (h : Host) (rest : GoString) (un : Nat)
    (hp : ParseUint h rest 64 = (un, none)) (hun : un ≤ 2 ^ 63) :
    ParseInt h ('-' :: rest) 64 = (-(un : Int), none) := by
  have hw : wrapInt 64 (-(wrapInt 64 (un : Int))) = -(un : Int) := by
    simp only [wrapInt]
    norm_num at hun ⊢
    omega
  have hun1 : un ≤ 9223372036854775808 := by norm_num at hun; exact hun
  simp [ParseInt, hp, hw, hun1]

theorem ParseInt_FormatInt (h : Host) (n : Int) (hlo : -2 ^ 63 ≤ n) (hhi : n < 2 ^ 63) :
    ParseInt h (FormatInt n) 64 = (n, none) := by
  by_cases hneg : n < 0
  · have hm : n.natAbs ≤ 2 ^ 63 := by norm_num at hlo ⊢; omega
    have hp := ParseUint_FormatUint h n.natAbs (by norm_num at hm ⊢; omega)
    have := ParseInt_minus h _ _ hp hm
    simp only [FormatInt, hneg, if_true, this]
    congr 1
    omega
  · have hm : n.natAbs < 2 ^ 63 := by norm_num at hhi ⊢; omega
    obtain ⟨d, rest, hd, hr⟩ := FormatUint_head n.natAbs
    have hp := ParseUint_FormatUint h n.natAbs (by norm_num at hm ⊢; omega)
    rw [hr] at hp
    have hplus : Nat.digitChar d ≠ '+' := by
      intro e
      have := digitChar_toNat d hd
      rw [e] at this
      simp at this
    have hminus : Nat.digitChar d ≠ '-' := by
      intro e
      have := digitChar_toNat d hd
      rw [e] at this
      simp at this
    have := ParseInt_unsigned h _ _ _ hplus hminus hp hm
    simp only [FormatInt, hneg, if_false, hr, this]
    congr 1
    omega

theorem FormatInt_ne_nil (n : Int) : FormatInt n ≠ [] := by
  obtain ⟨d, rest, _, hr⟩ := FormatUint_head n.natAbs
  by_cases hneg : n < 0 <;> simp [FormatInt, hneg, hr]

theorem FormatUint_ne_nil (m : Nat) : FormatUint m ≠ [] := by
  obtain ⟨d, rest, _, hr⟩ := FormatUint_head m
  simp [hr]

theorem ParseUint_minus (h : Host) (s : GoString) :
    ParseUint h ('-' :: s) 64 = (0, some (syntaxError "ParseUint".toList ('-' :: s))) := by
  have hd : (if 48 ≤ '-'.toNat ∧ '-'.toNat ≤ 57 then some ('-'.toNat - 48)
      else if 97 ≤ lower '-'.toNat ∧ lower '-'.toNat ≤ 122 then some (lower '-'.toNat - 97 + 10)
      else none) = none := by decide
  simp only [ParseUint, parseUintLoop, hd]
  simp

/-- C9, as the code has it: for every signed 64-bit integer `n`, `DecodeForm` on a
field whose value is the base-10 rendering of `n`, into a `*int64` target, returns
nil, leaves the response writer exactly as it was and sets the target to `n`;
likewise for every unsigned 64-bit integer into a `*uint64` target; and a value
that starts with a minus sign, into a `*uint64` target, is rejected in any state of
the response writer: a non-nil error wrapping the syntax error of `ParseUint` is
returned and its message with a newline is appended to the body, the status
becoming 400 when the status line was not written before and staying as it was
otherwise. -/
theorem DecodeForm_integers_undo_decimal (h : Host) (req : Request) (w : ResponseWriter)
    (key : GoString) :
    (∀ n old : Int, -2 ^ 63 ≤ n → n < 2 ^ 63 → req.FormValue key = FormatInt n →
        DecodeForm h (Context req w) key (Target.int64 old : Target Unit)
          = (Target.int64 n, .returned w none))
      ∧ (∀ m old : Nat, m < 2 ^ 64 → req.FormValue key = FormatUint m →
        DecodeForm h (Context req w) key (Target.uint64 old : Target Unit)
          = (Target.uint64 m, .returned w none))
      ∧ (∀ (s : GoString) (old : Nat), req.FormValue key = '-' :: s →
        DecodeForm h (Context req w) key (Target.uint64 old : Target Unit)
            = (Target.uint64 0,
               .returned
                 (reportedResponse w
                   ("invalid form value ".toList ++ Quote h key ++ ": ".toList
                     ++ (syntaxError "ParseUint".toList ('-' :: s)).Error h) 400)
                 (some (GoError.wrapped
                   ("invalid form value ".toList ++ Quote h key ++ ": ".toList
                     ++ (syntaxError "ParseUint".toList ('-' :: s)).Error h)
                   (syntaxError "ParseUint".toList ('-' :: s)))))
          ∧ (w.wroteHeader = false →
              (DecodeForm h (Context req w) key
                (Target.uint64 old : Target Unit)).2.response.Code = 400)
          ∧ (w.wroteHeader = true →
              (DecodeForm h (Context req w) key
                (Target.uint64 old : Target Unit)).2.response.Code = w.Code)
          ∧ DecodeForm h (Context req ResponseWriter.fresh) key (Target.uint64 old : Target Unit)
            = (Target.uint64 0,
               .returned
                 { Header := errorHeader, wroteHeader := true, Code := 400,
                   Body := "invalid form value ".toList ++ Quote h key ++ ": ".toList
                     ++ (syntaxError "ParseUint".toList ('-' :: s)).Error h ++ [newline] }
                 (some (GoError.wrapped
                   ("invalid form value ".toList ++ Quote h key ++ ": ".toList
                     ++ (syntaxError "ParseUint".toList ('-' :: s)).Error h)
                   (syntaxError "ParseUint".toList ('-' :: s)))))) := by
  refine ⟨?_, ?_, ?_⟩
  · intro n old hlo hhi hv
    have hne : req.FormValue key ≠ [] := by rw [hv]; exact FormatInt_ne_nil n
    apply DecodeForm_of_typeSwitch_ok h req w key _ _ hne
    simp only [typeSwitch, hv, ParseInt_FormatInt h n hlo hhi]
  · intro m old hm hv
    have hne : req.FormValue key ≠ [] := by rw [hv]; exact FormatUint_ne_nil m
    apply DecodeForm_of_typeSwitch_ok h req w key _ _ hne
    simp only [typeSwitch, hv, ParseUint_FormatUint h m hm]
  · intro s old hv
    have hne : req.FormValue key ≠ [] := by rw [hv]; simp
    have hany : ∀ w1 : ResponseWriter,
        DecodeForm h (Context req w1) key (Target.uint64 old : Target Unit)
          = (Target.uint64 0,
             .returned
               (reportedResponse w1
                 ((formError h key (syntaxError "ParseUint".toList ('-' :: s))).Error h) 400)
               (some (formError h key (syntaxError "ParseUint".toList ('-' :: s))))) :=
      fun w1 => DecodeForm_failure_any h req w1 key _ (Target.uint64 0)
        (syntaxError "ParseUint".toList ('-' :: s)) hne
        (by simp only [typeSwitch, hv, ParseUint_minus])
    refine ⟨hany w, ?_, ?_, ?_⟩
    · intro hw
      rw [hany w]
      exact reportedResponse_unwritten w _ 400 hw
    · intro hw
      rw [hany w]
      exact reportedResponse_written w _ 400 hw
    · rw [hany, reportedResponse_fresh]
      rfl

theorem DecodeForm_integers_undo_decimal_witness :
    DecodeForm host64 (Context (formRequest "-9223372036854775808".toList) ResponseWriter.fresh)
        "n".toList (Target.int64 5 : Target Unit)
      = (Target.int64 (-9223372036854775808), .returned ResponseWriter.fresh none)
    ∧ DecodeForm host64 (Context (formRequest "18446744073709551615".toList) ResponseWriter.fresh)
        "n".toList (Target.uint64 5 : Target Unit)
      = (Target.uint64 18446744073709551615, .returned ResponseWriter.fresh none)
    ∧ (DecodeForm host64 (Context (formRequest "-5".toList) ResponseWriter.fresh)
        "n".toList (Target.uint64 5 : Target Unit)).2.response.Code = 400
    ∧ (DecodeForm host64 (Context (formRequest "-5".toList) writtenResponse)
        "n".toList (Target.uint64 5 : Target Unit)).2.response.Code = 200 :=
  ⟨(DecodeForm_integers_undo_decimal host64 (formRequest "-9223372036854775808".toList)
      ResponseWriter.fresh "n".toList).1 (-9223372036854775808) 5 (by decide) (by decide)
      (by decide),
   (DecodeForm_integers_undo_decimal host64 (formRequest "18446744073709551615".toList)
      ResponseWriter.fresh "n".toList).2.1 18446744073709551615 5 (by decide) (by decide),
   ((DecodeForm_integers_undo_decimal host64 (formRequest "-5".toList)
      ResponseWriter.fresh "n".toList).2.2 "5".toList 5 rfl).2.1 rfl,
   ((DecodeForm_integers_undo_decimal host64 (formRequest "-5".toList)
      writtenResponse "n".toList).2.2 "5".toList 5 rfl).2.2.1 rfl⟩

/-- C9, counterexample: on a response whose status line was already written with
200, the value `-5` into a `*uint64` target is rejected with a non-nil error, but
the status stays 200 instead of 400. -/
theorem DecodeForm_minus_keeps_written_status :
    (DecodeForm host64 (Context (formRequest "-5".toList) writtenResponse) "n".toList
        (Target.uint64 5 : Target Unit)).2.value
      = some (some (formError host64 "n".toList (syntaxError "ParseUint".toList "-5".toList)))
    ∧ (DecodeForm host64 (Context (formRequest "-5".toList) writtenResponse) "n".toList
        (Target.uint64 5 : Target Unit)).2.response.Code = 200
    ∧ (DecodeForm host64 (Context (formRequest "-5".toList) writtenResponse) "n".toList
        (Target.uint64 5 : Target Unit)).2.response.Code ≠ 400 := by
  refine ⟨by decide, by decide, by decide⟩

theorem parseUintLoop_err (s0 : GoString) (mv : Nat) (cs : GoString) :
    ∀ (n r : Nat) (e : GoError), parseUintLoop s0 mv cs n = (r, some e) →
      (e = syntaxError "ParseUint".toList s0 ∧ r = 0)
        ∨ (e = rangeError "ParseUint".toList s0 ∧ r = mv) := by
  induction cs with
  | nil => intro n r e hp; simp [parseUintLoop] at hp
  | cons c cs ih =>
    intro n r e hp
    rw [parseUintLoop] at hp
    simp only [] at hp
    split at hp
    · simp only [Prod.mk.injEq, Option.some.injEq] at hp
      exact Or.inl ⟨hp.2.symm, hp.1.symm⟩
    · split_ifs at hp
      · simp only [Prod.mk.injEq, Option.some.injEq] at hp
        exact Or.inl ⟨hp.2.symm, hp.1.symm⟩
      · simp only [Prod.mk.injEq, Option.some.injEq] at hp
        exact Or.inr ⟨hp.2.symm, hp.1.symm⟩
      · simp only [Prod.mk.injEq, Option.some.injEq] at hp
        exact Or.inr ⟨hp.2.symm, hp.1.symm⟩
      · exact ih _ r e hp

theorem ParseUint_err (h : Host) (s : GoString) (b bits r : Nat) (e : GoError) (hb : b ≤ 64)
    (hbits : (if b = 0 then h.intSize else b) = bits) (hp : ParseUint h s b = (r, some e)) :
    (e = syntaxError "ParseUint".toList s ∧ r = 0)
      ∨ (e = rangeError "ParseUint".toList s ∧ r = (2 ^ bits % 2 ^ 64 + 2 ^ 64 - 1) % 2 ^ 64) := by
  have hb2 : ¬ (b > 64) := by omega
  by_cases hs : s = []
  · simp only [ParseUint, hs, if_true, Prod.mk.injEq, Option.some.injEq] at hp
    exact Or.inl ⟨by rw [hs]; exact hp.2.symm, hp.1.symm⟩
  · simp only [ParseUint, hs, if_false, hb2, hbits] at hp
    exact parseUintLoop_err _ _ _ _ _ _ hp

theorem Unwrap_retag (fn num : Option GoString) (e : GoError) :
    (e.retag fn num).Unwrap = e.Unwrap := by
  cases e <;> rfl

theorem ErrSyntax_ne_ErrRange : ErrSyntax ≠ ErrRange := by decide

theorem ParseInt_bounds (c : Char) (rest : GoString) (un bits : Nat) (r : Int) (e : GoError)
    (h3264 : bits = 32 ∨ bits = 64)
    (hp : (if (!decide (c = '-')) = true ∧ un ≥ 2 ^ (bits - 1) % 2 ^ 64 then
        (wrapInt 64 ((((2 ^ (bits - 1) % 2 ^ 64 : Nat) : Int) - 1) % 2 ^ 64),
          some (rangeError "ParseInt".toList (c :: rest)))
      else
        if decide (c = '-') = true ∧ un > 2 ^ (bits - 1) % 2 ^ 64 then
          (wrapInt 64 (-wrapInt 64 ((2 ^ (bits - 1) % 2 ^ 64 : Nat) : Int)),
            some (rangeError "ParseInt".toList (c :: rest)))
        else (if decide (c = '-') = true then wrapInt 64 (-wrapInt 64 (un : Int))
              else wrapInt 64 (un : Int), none)) = (r, some e)) :
    e.Unwrap = some ErrRange
      ∧ r = if (c :: rest).head? = some '-' then -2 ^ (bits - 1) else 2 ^ (bits - 1) - 1 := by
  split_ifs at hp with h1 h2
  · simp only [Prod.mk.injEq, Option.some.injEq] at hp
    have hc : c ≠ '-' := by simpa using h1.1
    refine ⟨by rw [← hp.2]; rfl, ?_⟩
    rw [← hp.1]
    simp only [List.head?_cons, Option.some.injEq, hc, if_false]
    rcases h3264 with rfl | rfl <;> norm_num [wrapInt]
  · simp only [Prod.mk.injEq, Option.some.injEq] at hp
    have hc : c = '-' := by simpa using h2.1
    refine ⟨by rw [← hp.2]; rfl, ?_⟩
    rw [← hp.1]
    simp only [List.head?_cons, hc, if_true]
    rcases h3264 with rfl | rfl <;> norm_num [wrapInt]
  · simp at hp
  · simp at hp

theorem ParseInt_err (h : Host) (s : GoString) (b bits : Nat) (r : Int) (e : GoError)
    (hb : b ≤ 64) (hbits : (if b = 0 then h.intSize else b) = bits)
    (h3264 : bits = 32 ∨ bits = 64) (hp : ParseInt h s b = (r, some e)) :
    (e.Unwrap = some ErrSyntax ∧ r = 0)
      ∨ (e.Unwrap = some ErrRange
          ∧ r = if s.head? = some '-' then -2 ^ (bits - 1) else 2 ^ (bits - 1) - 1) := by
  cases s with
  | nil =>
    simp only [ParseInt, Prod.mk.injEq, Option.some.injEq] at hp
    exact Or.inl ⟨by rw [← hp.2]; rfl, hp.1.symm⟩
  | cons c rest =>
    unfold ParseInt at hp
    simp only [] at hp
    rcases hpu : ParseUint h (if c = '+' then rest else if c = '-' then rest else c :: rest) b
      with ⟨un, err⟩
    rw [hpu] at hp
    simp only [hbits] at hp
    cases err with
    | none => exact Or.inr (ParseInt_bounds c rest un bits r e h3264 hp)
    | some e0 =>
      rcases ParseUint_err h _ b bits un e0 hb hbits hpu with ⟨he0, _⟩ | ⟨he0, _⟩
      · have hu : e0.Unwrap ≠ some ErrRange := by
          rw [he0]
          simp only [syntaxError, GoError.Unwrap, ne_eq, Option.some.injEq]
          exact ErrSyntax_ne_ErrRange
        simp only [hu, ne_eq, not_false_eq_true, if_true, Prod.mk.injEq, Option.some.injEq] at hp
        refine Or.inl ⟨?_, hp.1.symm⟩
        rw [← hp.2, Unwrap_retag, he0]
        rfl
      · have hu : e0.Unwrap = some ErrRange := by rw [he0]; rfl
        simp only [hu, ne_eq, not_true_eq_false, if_false] at hp
        exact Or.inr (ParseInt_bounds c rest un bits r e h3264 hp)

theorem wrapInt_bound (bits : Nat) (h3264 : bits = 32 ∨ bits = 64) :
    wrapInt bits 0 = 0 ∧ wrapInt bits (-2 ^ (bits - 1)) = -2 ^ (bits - 1)
      ∧ wrapInt bits (2 ^ (bits - 1) - 1) = 2 ^ (bits - 1) - 1 := by
  rcases h3264 with rfl | rfl <;> norm_num [wrapInt]

theorem intSize_32_or_64 (h : Host) : h.intSize = 32 ∨ h.intSize = 64 := by
  cases hb : h.is64 <;> simp [Host.intSize, hb]

theorem syntax_result (fn s : GoString) (r : Int) (e : GoError)
    (hp : ((0 : Int), some (syntaxError fn s)) = (r, some e)) :
    e.Unwrap = some ErrSyntax ∧ r = 0 := by
  simp only [Prod.mk.injEq, Option.some.injEq] at hp
  exact ⟨by rw [← hp.2]; rfl, hp.1.symm⟩

theorem Atoi_err (h : Host) (s : GoString) (r : Int) (e : GoError)
    (hp : Atoi h s = (r, some e)) :
    (e.Unwrap = some ErrSyntax ∧ r = 0)
      ∨ (e.Unwrap = some ErrRange
          ∧ r = if s.head? = some '-' then -2 ^ (h.intSize - 1) else 2 ^ (h.intSize - 1) - 1) := by
  unfold Atoi at hp
  simp only [] at hp
  split_ifs at hp with hfast
  · cases s with
    | nil =>
      simp only [Prod.mk.injEq, Option.some.injEq] at hp
      exact Or.inl ⟨by rw [← hp.2]; rfl, hp.1.symm⟩
    | cons c rest =>
      simp only [] at hp
      split_ifs at hp <;>
        first
        | exact Or.inl (syntax_result _ _ _ _ hp)
        | (split at hp <;>
            first
            | exact Or.inl (syntax_result _ _ _ _ hp)
            | exact absurd hp (by simp))
  · rcases hpi : ParseInt h s 0 with ⟨i64, err⟩
    rw [hpi] at hp
    simp only [Prod.mk.injEq] at hp
    obtain ⟨hr, he⟩ := hp
    cases err with
    | none => simp at he
    | some e0 =>
      simp only [Option.map_some', Option.some.injEq] at he
      have hw := wrapInt_bound h.intSize (intSize_32_or_64 h)
      rcases ParseInt_err h s 0 h.intSize i64 e0 (by omega) (by simp) (intSize_32_or_64 h) hpi
        with ⟨h1, h2⟩ | ⟨h1, h2⟩
      · refine Or.inl ⟨by rw [← he, Unwrap_retag, h1], ?_⟩
        rw [← hr, h2, hw.1]
      · refine Or.inr ⟨by rw [← he, Unwrap_retag, h1], ?_⟩
        rw [← hr, h2]
        split_ifs
        · exact hw.2.1
        · exact hw.2.2

theorem ParseBool_err (s : GoString) (r : Bool) (e : GoError)
    (hp : ParseBool s = (r, some e)) : e.Unwrap = some ErrSyntax ∧ r = false := by
  unfold ParseBool at hp
  split_ifs at hp
  · simp at hp
  · simp at hp
  · simp only [Prod.mk.injEq, Option.some.injEq] at hp
    exact ⟨by rw [← hp.2]; rfl, hp.1.symm⟩

/-- C10, as the code has it: for a non-empty field value that the parser of the
target kind rejects with error `e`, `DecodeForm`, in any state of the response
writer `w`, returns the non-nil error built from `e` and appends its message with
a newline to the body, and the target afterwards holds the parser's failure result
`r` whatever it held before (`old`): for `*int`, `*int64` and `*uint64` that result
is 0 when `e` is a syntax error and the nearest bound of the type when `e` is a
range error (the minimum when the value starts with a minus sign, else the
maximum); for `*bool` it is `false`.  The status becomes 400 when the status line
was not written before and stays as it was otherwise. -/
theorem DecodeForm_not_atomic_on_parse_failure (h : Host) (req : Request) (w : ResponseWriter)
    (key : GoString) (e : GoError) (hv : req.FormValue key ≠ []) :
    (∀ r old : Int, Atoi h (req.FormValue key) = (r, some e) →
        DecodeForm h (Context req w) key (Target.int old : Target Unit)
            = (Target.int r, .returned (reportedResponse w ((formError h key e).Error h) 400)
                (some (formError h key e)))
          ∧ ((e.Unwrap = some ErrSyntax ∧ r = 0)
            ∨ (e.Unwrap = some ErrRange
                ∧ r = if (req.FormValue key).head? = some '-' then -2 ^ (h.intSize - 1)
                      else 2 ^ (h.intSize - 1) - 1)))
      ∧ (∀ r old : Int, ParseInt h (req.FormValue key) 64 = (r, some e) →
        DecodeForm h (Context req w) key (Target.int64 old : Target Unit)
            = (Target.int64 r, .returned (reportedResponse w ((formError h key e).Error h) 400)
                (some (formError h key e)))
          ∧ ((e.Unwrap = some ErrSyntax ∧ r = 0)
            ∨ (e.Unwrap = some ErrRange
                ∧ r = if (req.FormValue key).head? = some '-' then -2 ^ 63 else 2 ^ 63 - 1)))
      ∧ (∀ r old : Nat, ParseUint h (req.FormValue key) 64 = (r, some e) →
        DecodeForm h (Context req w) key (Target.uint64 old : Target Unit)
            = (Target.uint64 r, .returned (reportedResponse w ((formError h key e).Error h) 400)
                (some (formError h key e)))
          ∧ ((e.Unwrap = some ErrSyntax ∧ r = 0) ∨ (e.Unwrap = some ErrRange ∧ r = 2 ^ 64 - 1)))
      ∧ (∀ r old : Bool, ParseBool (req.FormValue key) = (r, some e) →
        DecodeForm h (Context req w) key (Target.bool old : Target Unit)
            = (Target.bool r, .returned (reportedResponse w ((formError h key e).Error h) 400)
                (some (formError h key e)))
          ∧ e.Unwrap = some ErrSyntax ∧ r = false)
      ∧ (formError h key e).Error h
          = "invalid form value ".toList ++ Quote h key ++ ": ".toList ++ e.Error h
      ∧ (reportedResponse w ((formError h key e).Error h) 400).Body
          = w.Body ++ ((formError h key e).Error h ++ [newline])
      ∧ (w.wroteHeader = false →
          (reportedResponse w ((formError h key e).Error h) 400).Code = 400)
      ∧ (w.wroteHeader = true →
          (reportedResponse w ((formError h key e).Error h) 400).Code = w.Code)
      ∧ reportedResponse ResponseWriter.fresh ((formError h key e).Error h) 400
          = { Header := errorHeader, wroteHeader := true, Code := 400,
              Body := (formError h key e).Error h ++ [newline] } := by
  refine ⟨?_, ?_, ?_, ?_, rfl, rfl, reportedResponse_unwritten w _ 400,
    reportedResponse_written w _ 400, reportedResponse_fresh _ 400⟩
  · intro r old hp
    refine ⟨DecodeForm_failure_any h req w key _ _ e hv (by simp only [typeSwitch, hp]), ?_⟩
    exact Atoi_err h _ r e hp
  · intro r old hp
    refine ⟨DecodeForm_failure_any h req w key _ _ e hv (by simp only [typeSwitch, hp]), ?_⟩
    exact ParseInt_err h _ 64 64 r e le_rfl (by simp) (Or.inr rfl) hp
  · intro r old hp
    refine ⟨DecodeForm_failure_any h req w key _ _ e hv (by simp only [typeSwitch, hp]), ?_⟩
    rcases ParseUint_err h _ 64 64 r e le_rfl (by simp) hp with ⟨h1, h2⟩ | ⟨h1, h2⟩
    · exact Or.inl ⟨by rw [h1]; rfl, h2⟩
    · exact Or.inr ⟨by rw [h1]; rfl, by rw [h2, maxVal64]⟩
  · intro r old hp
    refine ⟨DecodeForm_failure_any h req w key _ _ e hv (by simp only [typeSwitch, hp]), ?_⟩
    exact ParseBool_err _ r e hp

theorem DecodeForm_not_atomic_on_parse_failure_witness :
    (DecodeForm host64 (Context (formRequest "abc".toList) ResponseWriter.fresh) "n".toList
        (Target.int 7 : Target Unit)).1 = Target.int 0
      ∧ (DecodeForm host64 (Context (formRequest "-99999999999999999999".toList)
          writtenResponse) "n".toList (Target.int64 7 : Target Unit)).1
        = Target.int64 (-9223372036854775808)
      ∧ (DecodeForm host32 (Context (formRequest "4294967296".toList)
          ResponseWriter.fresh) "n".toList (Target.int 7 : Target Unit)).1
        = Target.int 2147483647 :=
  ⟨congrArg Prod.fst
      ((DecodeForm_not_atomic_on_parse_failure host64 (formRequest "abc".toList)
        ResponseWriter.fresh "n".toList
        (syntaxError "Atoi".toList "abc".toList) (by decide)).1 0 7 (by decide)).1,
   congrArg Prod.fst
      ((DecodeForm_not_atomic_on_parse_failure host64
        (formRequest "-99999999999999999999".toList) writtenResponse "n".toList
        (rangeError "ParseInt".toList "-99999999999999999999".toList) (by decide)).2.1
          (-9223372036854775808) 7 (by decide)).1,
   congrArg Prod.fst
      ((DecodeForm_not_atomic_on_parse_failure host32
        (formRequest "4294967296".toList) ResponseWriter.fresh "n".toList
        (rangeError "Atoi".toList "4294967296".toList) (by decide)).1
          2147483647 7 (by decide)).1⟩

/-- C10, counterexample: on a response whose status line was already written with
200, the value `abc` into a `*int` target holding 7 is rejected with a non-nil
error and the target is overwritten with 0, but the status stays 200: status 400
is not written. -/
theorem DecodeForm_failure_keeps_written_status :
    (DecodeForm host64 (Context (formRequest "abc".toList) writtenResponse) "n".toList
        (Target.int 7 : Target Unit)).1 = Target.int 0
    ∧ (DecodeForm host64 (Context (formRequest "abc".toList) writtenResponse) "n".toList
        (Target.int 7 : Target Unit)).2.value
      = some (some (formError host64 "n".toList (syntaxError "Atoi".toList "abc".toList)))
    ∧ (DecodeForm host64 (Context (formRequest "abc".toList) writtenResponse) "n".toList
        (Target.int 7 : Target Unit)).2.response.Code = 200
    ∧ (DecodeForm host64 (Context (formRequest "abc".toList) writtenResponse) "n".toList
        (Target.int 7 : Target Unit)).2.response.Code ≠ 400 := by
  refine ⟨rfl, by decide, by decide, by decide⟩

theorem appendEscapedRune_plain (h : Host) (c : Char) (hp : IsPrint h c.toNat = true)
    (hq : c ≠ dquote) (hb : c ≠ backslash) : appendEscapedRune h c = [c] := by
  have h34 : c.toNat ≠ 34 := fun e => hq (by rw [← Char.ofNat_toNat c, e]; rfl)
  have h92 : c.toNat ≠ 92 := fun e => hb (by rw [← Char.ofNat_toNat c, e]; rfl)
  simp [appendEscapedRune, h34, h92, hp]

theorem Quote_plain (h : Host) (key : GoString)
    (hk : ∀ c ∈ key, IsPrint h c.toNat = true ∧ c ≠ dquote ∧ c ≠ backslash) :
    Quote h key = dquote :: (key ++ [dquote]) := by
  have hf : key.flatMap (appendEscapedRune h) = key := by
    induction key with
    | nil => rfl
    | cons c cs ih =>
      have hc := hk c (List.mem_cons_self c cs)
      rw [List.flatMap_cons, appendEscapedRune_plain h c hc.1 hc.2.1 hc.2.2,
        ih (fun d hd => hk d (List.mem_cons_of_mem c hd))]
      rfl
  simp only [Quote, hf]

/-- C5, as the code has it: for a non-empty field value whose conversion in the
type switch fails with error `e` (a parse function or a capability returned `e`),
`DecodeForm`, in any state of the response writer `w`, returns a non-nil error
wrapping `e` whose message is `invalid form value <q>: <e.Error()>`, sets the
plain-text headers and appends that message followed by a newline to the body,
where `<q>` is the key as the verb `%q` prints it (`strconv.Quote`); the status
becomes 400 when the status line was not written before and stays as it was
otherwise; on a fresh response the status is 400 and the body is the message
followed by a newline.  `<q>` is the key verbatim between double quotes whenever
the key consists of printable characters other than the double quote and the
backslash.  The value `abc` into a `*int` target is such a failure. -/
theorem DecodeForm_conversion_failure_reports_400 {σ : Type} (h : Host) (req : Request)
    (w : ResponseWriter) (key : GoString) (v v1 : Target σ) (e : GoError)
    (hv : req.FormValue key ≠ [])
    (hs : typeSwitch h v (req.FormValue key) = .ok (v1, some e)) :
    DecodeForm h (Context req w) key v
        = (v1,
           .returned
             (reportedResponse w
               ("invalid form value ".toList ++ Quote h key ++ ": ".toList ++ e.Error h) 400)
             (some (GoError.wrapped
               ("invalid form value ".toList ++ Quote h key ++ ": ".toList ++ e.Error h) e)))
      ∧ (DecodeForm h (Context req w) key v).2.response.Body
          = w.Body ++ ("invalid form value ".toList ++ Quote h key ++ ": ".toList ++ e.Error h
              ++ [newline])
      ∧ (w.wroteHeader = false → (DecodeForm h (Context req w) key v).2.response.Code = 400)
      ∧ (w.wroteHeader = true → (DecodeForm h (Context req w) key v).2.response.Code = w.Code)
      ∧ DecodeForm h (Context req ResponseWriter.fresh) key v
        = (v1,
           .returned
             { Header := errorHeader, wroteHeader := true, Code := 400,
               Body := "invalid form value ".toList ++ Quote h key ++ ": ".toList ++ e.Error h
                  ++ [newline] }
             (some (GoError.wrapped
               ("invalid form value ".toList ++ Quote h key ++ ": ".toList ++ e.Error h) e)))
      ∧ (GoError.wrapped
            ("invalid form value ".toList ++ Quote h key ++ ": ".toList ++ e.Error h) e).Error h
          = "invalid form value ".toList ++ Quote h key ++ ": ".toList ++ e.Error h
      ∧ ((∀ c ∈ key, IsPrint h c.toNat = true ∧ c ≠ dquote ∧ c ≠ backslash) →
          Quote h key = dquote :: (key ++ [dquote]))
      ∧ (∀ old : Int, ∃ e1, typeSwitch h (Target.int old : Target σ) "abc".toList
          = .ok (Target.int 0, some e1)) := by
  have hany : ∀ w1 : ResponseWriter, DecodeForm h (Context req w1) key v
      = (v1,
         .returned
           (reportedResponse w1
             ("invalid form value ".toList ++ Quote h key ++ ": ".toList ++ e.Error h) 400)
           (some (GoError.wrapped
             ("invalid form value ".toList ++ Quote h key ++ ": ".toList ++ e.Error h) e))) :=
    fun w1 => DecodeForm_failure_any h req w1 key v v1 e hv hs
  refine ⟨hany w, ?_, ?_, ?_, ?_, rfl, Quote_plain h key, ?_⟩
  · rw [hany w]
    simp [Outcome.response, reportedResponse]
  · intro hw
    rw [hany w]
    exact reportedResponse_unwritten w _ 400 hw
  · intro hw
    rw [hany w]
    exact reportedResponse_written w _ 400 hw
  · rw [hany, reportedResponse_fresh]
  · intro old
    refine ⟨syntaxError "Atoi".toList "abc".toList, ?_⟩
    have ha : Atoi h "abc".toList = (0, some (syntaxError "Atoi".toList "abc".toList)) := by
      cases hb : h.is64 <;> simp [Atoi, Host.intSize, hb, byteLen, utf8Width, atoiLoop]
    simp only [typeSwitch, ha]

theorem DecodeForm_conversion_failure_reports_400_witness :
    DecodeForm host64 (Context (formRequest "abc".toList) ResponseWriter.fresh) "page".toList
        (Target.int 7 : Target Unit)
      = (Target.int 0,
         .returned
           { Header := errorHeader, wroteHeader := true, Code := 400,
             Body := "invalid form value ".toList ++ (dquote :: ("page".toList ++ [dquote]))
                ++ ": strconv.Atoi: parsing ".toList ++ (dquote :: ("abc".toList ++ [dquote]))
                ++ ": invalid syntax".toList ++ [newline] }
           (some (GoError.wrapped
             ("invalid form value ".toList ++ (dquote :: ("page".toList ++ [dquote]))
                ++ ": strconv.Atoi: parsing ".toList ++ (dquote :: ("abc".toList ++ [dquote]))
                ++ ": invalid syntax".toList)
             (syntaxError "Atoi".toList "abc".toList))))
    ∧ (DecodeForm host64 (Context (formRequest "x".toList) writtenResponse) "id".toList
        failingTarget).2.response.Code = 200 :=
  ⟨(DecodeForm_conversion_failure_reports_400 host64 (formRequest "abc".toList)
      ResponseWriter.fresh "page".toList
      (Target.int 7 : Target Unit) (Target.int 0) (syntaxError "Atoi".toList "abc".toList)
      (by decide) rfl).2.2.2.2.1,
   (DecodeForm_conversion_failure_reports_400 host64 (formRequest "x".toList) writtenResponse
      "id".toList failingTarget failingTarget (.plain "bad id".toList) (by decide)
      rfl).2.2.2.1 rfl⟩

set_option maxRecDepth 100000 in
/-- C5, counterexample: for the key `a"b` and the value `abc` into a `*int` target,
the conversion fails and, on a fresh response, status 400 is written, but the error
message holds the key as `%q` prints it, with the inner double quote escaped by a
backslash; the message is not `invalid form value "<key>": <underlying error>` and
the body does not contain the key verbatim between double quotes.  On a response
whose status line was already written with 200 the same call returns the error but
the status stays 200. -/
theorem DecodeForm_key_with_quote_is_escaped :
    (DecodeForm host64 (Context (formRequest "abc".toList) ResponseWriter.fresh) quotedKey
        (Target.int 7 : Target Unit)).2.value
      = some (some (GoError.wrapped
          ("invalid form value ".toList ++ [dquote, 'a', backslash, dquote, 'b', dquote]
            ++ ": ".toList ++ (syntaxError "Atoi".toList "abc".toList).Error host64)
          (syntaxError "Atoi".toList "abc".toList)))
    ∧ (DecodeForm host64 (Context (formRequest "abc".toList) ResponseWriter.fresh) quotedKey
        (Target.int 7 : Target Unit)).2.response.Code = 400
    ∧ (DecodeForm host64 (Context (formRequest "abc".toList) ResponseWriter.fresh) quotedKey
        (Target.int 7 : Target Unit)).2.response.Body
      = "invalid form value ".toList ++ [dquote, 'a', backslash, dquote, 'b', dquote]
            ++ ": ".toList ++ (syntaxError "Atoi".toList "abc".toList).Error host64 ++ [newline]
    ∧ (DecodeForm host64 (Context (formRequest "abc".toList) ResponseWriter.fresh) quotedKey
        (Target.int 7 : Target Unit)).2.response.Body
      ≠ "invalid form value ".toList ++ (dquote :: (quotedKey ++ [dquote]))
            ++ ": ".toList ++ (syntaxError "Atoi".toList "abc".toList).Error host64 ++ [newline]
    ∧ (DecodeForm host64 (Context (formRequest "abc".toList) ResponseWriter.fresh) quotedKey
        (Target.int 7 : Target Unit)).2.response.Body
      ≠ "invalid form value ".toList ++ (dquote :: (quotedKey ++ [dquote]))
            ++ ": ".toList ++ (syntaxError "Atoi".toList "abc".toList).Error host64
    ∧ ¬ ((dquote :: (quotedKey ++ [dquote]))
          <:+: (DecodeForm host64 (Context (formRequest "abc".toList) ResponseWriter.fresh)
            quotedKey (Target.int 7 : Target Unit)).2.response.Body)
    ∧ (DecodeForm host64 (Context (formRequest "abc".toList) writtenResponse) quotedKey
        (Target.int 7 : Target Unit)).2.response.Code = 200
    ∧ (DecodeForm host64 (Context (formRequest "abc".toList) writtenResponse) quotedKey
        (Target.int 7 : Target Unit)).2.value
      = some (some (GoError.wrapped
          ("invalid form value ".toList ++ [dquote, 'a', backslash, dquote, 'b', dquote]
            ++ ": ".toList ++ (syntaxError "Atoi".toList "abc".toList).Error host64)
          (syntaxError "Atoi".toList "abc".toList))) := by
  refine ⟨by decide, by decide, by decide, by decide, by decide, by decide, by decide,
    by decide⟩

end Httputil
